import Mathlib

/-
Verification of the draft-pick identity & valuation reconciliation engine of
the fn_app_backend repository (Fleaflicker/MFL fantasy-league aggregation).

The development shallowly embeds the relevant Python functions of
`fleaflicker/fleaflicker_utils.py` and `mfl/mfl_utils.py`:

  * `_get_round_suffix` / `_get_positional_round_name` (canonical namer),
  * `extract_all_fleaflicker_draft_picks` (ownership resolver),
  * `insert_fleaflicker_draft_picks_data` (pick-ledger upsert),
  * the aggregation SQL of `insert_fleaflicker_ranks_summary`
    (LEFT JOIN chain, GROUP BY, RANK() window, ranks_summary upsert),
  * the delete-then-insert transactions of `insert_mfl_draft_picks` and
    `player_manager_rosters_fleaflicker`.

Databases are lists of rows; SQL NULL is `Option`; Python `str(n)` for a
natural number is the decimal renderer `decRep`/`natToString` below
(fuel-based so that it reduces by kernel computation).
-/

/-- One decimal digit character: `Char.ofNat (48 + d)` is the ASCII digit. -/
def decDigit (d : Nat) : Char := Char.ofNat (48 + d)

/-- Decimal rendering accumulator: renders `n` in base 10 (most significant
digit first) in front of `acc`.  `fuel` bounds the recursion depth; any
`fuel ≥ n` is sufficient.  This is the standard decimal rendering that
Python's `str(int)` produces. -/
def decAuxF (fuel n : Nat) (acc : List Char) : List Char :=
  match fuel with
  | 0 => decDigit n :: acc
  | fuel + 1 =>
    if n < 10 then decDigit n :: acc
    else decAuxF fuel (n / 10) (decDigit (n % 10) :: acc)

/-- The decimal digit characters of `n`, most significant first. -/
def decRep (n : Nat) : List Char := decAuxF n n []

/-- Embedding of Python `str(n)` for a non-negative integer `n`. -/
def natToString (n : Nat) : String := String.mk (decRep n)

theorem decAuxF_small (fuel n : Nat) (acc : List Char) (h : n < 10) :
    decAuxF fuel n acc = decDigit n :: acc := by
  cases fuel <;> simp [decAuxF, h]

theorem decAuxF_congr : ∀ n fuel₁ fuel₂ : Nat, ∀ acc : List Char,
    n ≤ fuel₁ → n ≤ fuel₂ → decAuxF fuel₁ n acc = decAuxF fuel₂ n acc := by
  intro n
  induction n using Nat.strong_induction_on with
  | _ n ih =>
    intro fuel₁ fuel₂ acc h₁ h₂
    by_cases h : n < 10
    · rw [decAuxF_small fuel₁ n acc h, decAuxF_small fuel₂ n acc h]
    · obtain ⟨f₁, rfl⟩ : ∃ f, fuel₁ = f + 1 := ⟨fuel₁ - 1, by omega⟩
      obtain ⟨f₂, rfl⟩ : ∃ f, fuel₂ = f + 1 := ⟨fuel₂ - 1, by omega⟩
      simp only [decAuxF, h, if_false]
      exact ih (n / 10) (Nat.div_lt_self (by omega) (by omega)) f₁ f₂ _
        (by omega) (by omega)

theorem decAuxF_append : ∀ fuel n : Nat, ∀ acc : List Char,
    decAuxF fuel n acc = decAuxF fuel n [] ++ acc := by
  intro fuel
  induction fuel with
  | zero => intro n acc; simp [decAuxF]
  | succ f ih =>
    intro n acc
    by_cases h : n < 10
    · simp [decAuxF, h]
    · simp only [decAuxF, h, if_false]
      rw [ih (n / 10) (decDigit (n % 10) :: acc), ih (n / 10) (decDigit (n % 10) :: [])]
      simp

theorem decRep_small (n : Nat) (h : n < 10) : decRep n = [decDigit n] :=
  decAuxF_small n n [] h

theorem decRep_step (n : Nat) (h : ¬n < 10) :
    decRep n = decRep (n / 10) ++ [decDigit (n % 10)] := by
  obtain ⟨m, rfl⟩ : ∃ m, n = m + 1 := ⟨n - 1, by omega⟩
  rw [decRep, decAuxF]
  simp only [h, if_false]
  rw [decAuxF_congr ((m + 1) / 10) m ((m + 1) / 10) _ (by omega) (by omega),
    decAuxF_append]
  rfl

/-- Numeric value of a digit character. -/
def chVal (c : Char) : Nat := c.toNat - 48

/-- Base-10 value of a digit string, starting from accumulator `a`. -/
def listValFrom (a : Nat) (l : List Char) : Nat :=
  l.foldl (fun x c => 10 * x + chVal c) a

theorem chVal_decDigit (d : Nat) (h : d < 10) : chVal (decDigit d) = d := by
  interval_cases d <;> rfl

theorem listValFrom_decRep (n : Nat) :
    ∀ a : Nat, listValFrom a (decRep n) = a * 10 ^ (decRep n).length + n := by
  induction n using Nat.strong_induction_on with
  | _ n ih =>
    intro a
    by_cases h : n < 10
    · rw [decRep_small n h]
      simp [listValFrom, chVal_decDigit n h]
      omega
    · have hdiv : n / 10 < n := Nat.div_lt_self (by omega) (by omega)
      rw [decRep_step n h]
      rw [listValFrom, List.foldl_append]
      have hfold : List.foldl (fun x c => 10 * x + chVal c) a (decRep (n / 10))
          = a * 10 ^ (decRep (n / 10)).length + n / 10 := ih (n / 10) hdiv a
      rw [hfold]
      simp only [List.foldl_cons, List.foldl_nil, List.length_append, List.length_cons,
        List.length_nil]
      rw [chVal_decDigit (n % 10) (Nat.mod_lt n (by omega))]
      have h1 : 10 * (n / 10) + n % 10 = n := by omega
      calc 10 * (a * 10 ^ (decRep (n / 10)).length + n / 10) + n % 10
          = a * (10 ^ (decRep (n / 10)).length * 10) + (10 * (n / 10) + n % 10) := by ring
        _ = a * 10 ^ ((decRep (n / 10)).length + 0 + 1) + n := by rw [h1]; ring

theorem decRep_injective : Function.Injective decRep := by
  intro a b h
  have ha := listValFrom_decRep a 0
  have hb := listValFrom_decRep b 0
  rw [h] at ha
  rw [ha] at hb
  omega

theorem natToString_injective : Function.Injective natToString := by
  intro a b h
  exact decRep_injective (congrArg String.data h)

theorem natToString_data (n : Nat) : (natToString n).data = decRep n := rfl

/-- Two strings with the same character data are equal. -/
theorem string_data_inj (s t : String) (h : s.data = t.data) : s = t := by
  cases s; cases t; exact congrArg String.mk h

example : natToString 2026 = "2026" := by decide
example : natToString 0 = "0" := by decide

/-- Embedding of `_get_round_suffix` (fleaflicker_utils.py, lines 1489-1500):
ordinal suffix for a round number, with the 11/12/13 irregular cases checked
first, then the last decimal digit. -/
def get_round_suffix (round_num : Nat) : String :=
  if round_num = 11 ∨ round_num = 12 ∨ round_num = 13 then natToString round_num ++ "th"
  else if round_num % 10 = 1 then natToString round_num ++ "st"
  else if round_num % 10 = 2 then natToString round_num ++ "nd"
  else if round_num % 10 = 3 then natToString round_num ++ "rd"
  else natToString round_num ++ "th"

/-- The draft-position tier within a round (Early/Mid/Late). -/
inductive Tier where
  | Early : Tier
  | Mid : Tier
  | Late : Tier
deriving DecidableEq, Repr

/-- The string used for a tier by `_get_positional_round_name`. -/
def tierStr : Tier → String
  | Tier.Early => "Early"
  | Tier.Mid => "Mid"
  | Tier.Late => "Late"

/-- The tier assigned to a draft slot by `_get_positional_round_name`:
`third = league_size // 3`; slots `1..third` are Early, up to `2*third` Mid,
the rest Late. -/
def slotTier (slot league_size : Nat) : Tier :=
  let third := league_size / 3
  if slot ≤ third then Tier.Early
  else if slot ≤ 2 * third then Tier.Mid
  else Tier.Late

/-- Embedding of `_get_positional_round_name` (fleaflicker_utils.py, lines
1503-1535).  The Python function inlines the same ordinal computation as
`_get_round_suffix`; the Python default for `league_size` is 12. -/
def get_positional_round_name (round_num slot league_size : Nat) : String :=
  let ordinal := get_round_suffix round_num
  let third := league_size / 3
  if slot ≤ third then "Early " ++ ordinal
  else if slot ≤ 2 * third then "Mid " ++ ordinal
  else "Late " ++ ordinal

theorem get_positional_round_name_eq (round_num slot league_size : Nat) :
    get_positional_round_name round_num slot league_size
      = tierStr (slotTier slot league_size) ++ " " ++ get_round_suffix round_num := by
  rw [get_positional_round_name, slotTier]
  split_ifs <;> rfl

/-- The canonical valuation-lookup key for a draft pick, as the repository
builds it: the summary SQL joins on `dp.year || ' ' || dp.round_name`, where
`round_name` is `tier ++ " " ++ _get_round_suffix round` (either the fixed
`"Mid"` tier of `extract_all_fleaflicker_draft_picks`, line 1318, or the
positional tier of `_get_positional_round_name`). -/
def canonicalPickName (season round : Nat) (tier : Tier) : String :=
  natToString season ++ " " ++ (tierStr tier ++ " " ++ get_round_suffix round)

/-- Lengths of the three tier strings (5, 3, 4 — pairwise distinct). -/
def tierLen : Tier → Nat
  | Tier.Early => 5
  | Tier.Mid => 3
  | Tier.Late => 4

theorem tierStr_data_length (t : Tier) : (tierStr t).data.length = tierLen t := by
  cases t <;> rfl

theorem get_round_suffix_data (n : Nat) :
    ∃ s : List Char, (get_round_suffix n).data = decRep n ++ s ∧ s.length = 2 := by
  rw [get_round_suffix]
  split_ifs <;> exact ⟨_, by rw [String.data_append]; rfl, by decide⟩

theorem get_round_suffix_injective : Function.Injective get_round_suffix := by
  intro a b h
  obtain ⟨sa, ha, hla⟩ := get_round_suffix_data a
  obtain ⟨sb, hb, hlb⟩ := get_round_suffix_data b
  have hd : decRep a ++ sa = decRep b ++ sb := by
    rw [← ha, ← hb, h]
  exact decRep_injective (List.append_inj' hd (by omega)).1

theorem canonicalPickName_data (s r : Nat) (t : Tier) :
    (canonicalPickName s r t).data
      = decRep s ++ ((" " : String).data
          ++ ((tierStr t).data ++ ((" " : String).data ++ (get_round_suffix r).data))) := by
  simp [canonicalPickName, String.data_append, List.append_assoc, natToString_data]

/-- C8: the canonical namer is a deterministic pure function; names are
injective in the round (same season and tier) and injective in the tier
(same season and round). -/
theorem canonical_name_deterministic_and_injective :
    (∀ (s r : Nat) (t : Tier), canonicalPickName s r t = canonicalPickName s r t) ∧
    (∀ (s r₁ r₂ : Nat) (t : Tier), r₁ ≠ r₂ →
      canonicalPickName s r₁ t ≠ canonicalPickName s r₂ t) ∧
    (∀ (s r : Nat) (t₁ t₂ : Tier), t₁ ≠ t₂ →
      canonicalPickName s r t₁ ≠ canonicalPickName s r t₂) := by
  refine ⟨fun s r t => rfl, ?_, ?_⟩
  · intro s r₁ r₂ t hne heq
    apply hne
    have hd := congrArg String.data heq
    rw [canonicalPickName_data, canonicalPickName_data] at hd
    have h1 : (get_round_suffix r₁).data = (get_round_suffix r₂).data := by
      simpa using hd
    exact get_round_suffix_injective (string_data_inj _ _ h1)
  · intro s r t₁ t₂ hne heq
    apply hne
    have hd := congrArg String.data heq
    rw [canonicalPickName_data, canonicalPickName_data] at hd
    have h1 : (tierStr t₁).data ++ ((" " : String).data ++ (get_round_suffix r).data)
        = (tierStr t₂).data ++ ((" " : String).data ++ (get_round_suffix r).data) := by
      simpa using hd
    have h2 := congrArg List.length h1
    simp only [List.length_append, tierStr_data_length] at h2
    have h3 : tierLen t₁ = tierLen t₂ := by omega
    cases t₁ <;> cases t₂ <;> first
      | rfl
      | exact absurd h3 (by decide)

/-- Witness for C8 at the spec's own examples. -/
theorem canonical_name_deterministic_and_injective_witness :
    canonicalPickName 2026 2 Tier.Mid = canonicalPickName 2026 2 Tier.Mid ∧
    canonicalPickName 2026 2 Tier.Mid ≠ canonicalPickName 2026 3 Tier.Mid ∧
    canonicalPickName 2026 1 Tier.Early ≠ canonicalPickName 2026 1 Tier.Late :=
  ⟨canonical_name_deterministic_and_injective.1 2026 2 Tier.Mid,
   canonical_name_deterministic_and_injective.2.1 2026 2 3 Tier.Mid (by decide),
   canonical_name_deterministic_and_injective.2.2 2026 1 Tier.Early Tier.Late (by decide)⟩

/-- The ordinal suffix rule exactly as the spec words it: `n` followed by
"st"/"nd"/"rd"/"th" chosen by `n mod 10`, with 11, 12, 13 irregular ("th").
Stated from the spec, to be compared with `get_round_suffix`. -/
def spec_ordinal_suffix (n : Nat) : String :=
  natToString n ++
    (if n = 11 ∨ n = 12 ∨ n = 13 then "th"
     else if n % 10 = 1 then "st"
     else if n % 10 = 2 then "nd"
     else if n % 10 = 3 then "rd"
     else "th")

/-- C9: for every positive round number the round-name transform agrees with
the spec's ordinal suffix rule. -/
theorem get_round_suffix_follows_ordinal_rule (n : Nat) (_h : 0 < n) :
    get_round_suffix n = spec_ordinal_suffix n := by
  rw [get_round_suffix, spec_ordinal_suffix]
  split_ifs <;> rfl

/-- Witness for C9 at `n = 12`. -/
theorem get_round_suffix_follows_ordinal_rule_witness :
    0 < 12 ∧ get_round_suffix 12 = spec_ordinal_suffix 12 :=
  ⟨by decide, get_round_suffix_follows_ordinal_rule 12 (by decide)⟩

example : get_round_suffix 1 = "1st" := by decide
example : get_round_suffix 2 = "2nd" := by decide
example : get_round_suffix 11 = "11th" := by decide
example : get_round_suffix 21 = "21st" := by decide
example : canonicalPickName 2026 2 Tier.Mid = "2026 Mid 2nd" := by decide

/-! ### Data model of the aggregation query

Row types mirror the columns that the summary SQL of
`insert_fleaflicker_ranks_summary` (fleaflicker_utils.py, lines 659-705)
reads.  A database is the collection of the five tables involved. -/

/-- A row of `dynastr.fleaflicker_teams`. -/
structure FTeamRow where
  league_id : String
  session_id : String
  team_id : String
  owner_id : String
  owner_display_name : String
deriving DecidableEq

/-- A row of `dynastr.league_players` (one rostered-player row). -/
structure LeaguePlayerRow where
  user_id : String
  player_id : String
  league_id : String
  session_id : String
deriving DecidableEq

/-- A row of `dynastr.players`. -/
structure PlayerRow where
  player_id : String
  full_name : String
  player_position : String
deriving DecidableEq

/-- A row of `dynastr.sf_player_ranks` (the valuation table). -/
structure SfRankRow where
  player_full_name : String
  superflex_sf_value : Int
  rank_type : String
deriving DecidableEq

/-- A row of `dynastr.draft_picks` (the pick ledger): `roster_id` is the
original owner team, `owner_id` the current owner team. -/
structure DraftPickRow where
  year : String
  round : String
  round_name : String
  roster_id : String
  owner_id : String
  league_id : String
  draft_id : Option String
  session_id : String
deriving DecidableEq

/-- The tables read and written by the functions under verification. -/
structure Database where
  fleaflicker_teams : List FTeamRow
  league_players : List LeaguePlayerRow
  players : List PlayerRow
  sf_player_ranks : List SfRankRow
  draft_picks : List DraftPickRow
deriving DecidableEq

/-- LEFT JOIN step: a left row with no match yields one all-NULL right side,
otherwise one output row per matching right row. -/
def optJoin {β : Type} (xs : List β) : List (Option β) :=
  match xs with
  | [] => [none]
  | xs => xs.map some

/-! ### The LEFT JOIN chain of the summary query

The query's join tree is
`ft LJ league_players LJ players LJ sf_player_ranks LJ draft_picks LJ sf_player_ranks`.
The last two joins' ON conditions mention only `ft` resp. `draft_picks`, so
the joined relation is, per team row, the cross product of a roster-side
branch list and a pick-side branch list. -/

/-- Roster side of one joined row: the `lp`, `p`, `sfr` columns. -/
structure RosterBranch where
  lp : Option LeaguePlayerRow
  p : Option PlayerRow
  sfr : Option SfRankRow
deriving DecidableEq

/-- Pick side of one joined row: the `dp`, `sfr2` columns. -/
structure PickBranch where
  dp : Option DraftPickRow
  sfr2 : Option SfRankRow
deriving DecidableEq

/-- Valuation rows matching a player name:
`ON p.full_name = sfr.player_full_name AND sfr.rank_type = 'dynasty'`. -/
def playerNameMatches (ranks : List SfRankRow) (full_name : String) : List SfRankRow :=
  ranks.filter fun r => full_name == r.player_full_name && r.rank_type == "dynasty"

/-- Valuation rows matching a pick:
`ON (dp.year || ' ' || dp.round_name) = sfr2.player_full_name AND sfr2.rank_type = 'dynasty'`. -/
def pickNameMatches (ranks : List SfRankRow) (d : DraftPickRow) : List SfRankRow :=
  ranks.filter fun r => (d.year ++ " " ++ d.round_name) == r.player_full_name
    && r.rank_type == "dynasty"

/-- `LEFT JOIN players LEFT JOIN sf_player_ranks` under one `lp` option:
a NULL `lp` propagates NULL (`lp.player_id = p.player_id` is UNKNOWN). -/
def branchesOfLp (players : List PlayerRow) (ranks : List SfRankRow)
    (olp : Option LeaguePlayerRow) : List RosterBranch :=
  (match olp with
   | none => ([none] : List (Option PlayerRow))
   | some lp => optJoin (players.filter fun p => lp.player_id == p.player_id)).flatMap
    fun op =>
      (match op with
       | none => ([none] : List (Option SfRankRow))
       | some p => optJoin (playerNameMatches ranks p.full_name)).map
        fun osfr => { lp := olp, p := op, sfr := osfr }

/-- All roster-side branches of a team's joined rows. -/
def mkRosterBranches (players : List PlayerRow) (ranks : List SfRankRow)
    (lps : List LeaguePlayerRow) : List RosterBranch :=
  (optJoin lps).flatMap (branchesOfLp players ranks)

/-- The rostered-player rows joined to a team:
`ON ft.owner_id = lp.user_id AND lp.league_id = $1 AND lp.session_id = $2`. -/
def lpMatches (db : Database) (league_id session_id : String) (ft : FTeamRow) :
    List LeaguePlayerRow :=
  db.league_players.filter fun lp => ft.owner_id == lp.user_id
    && lp.league_id == league_id && lp.session_id == session_id

def rosterBranches (db : Database) (league_id session_id : String) (ft : FTeamRow) :
    List RosterBranch :=
  mkRosterBranches db.players db.sf_player_ranks (lpMatches db league_id session_id ft)

/-- `LEFT JOIN sf_player_ranks sfr2` under one `dp` option. -/
def branchesOfPick (ranks : List SfRankRow) (odp : Option DraftPickRow) : List PickBranch :=
  (match odp with
   | none => ([none] : List (Option SfRankRow))
   | some d => optJoin (pickNameMatches ranks d)).map
    fun osfr2 => { dp := odp, sfr2 := osfr2 }

/-- All pick-side branches of a team's joined rows. -/
def mkPickBranches (ranks : List SfRankRow) (picks : List DraftPickRow) : List PickBranch :=
  (optJoin picks).flatMap (branchesOfPick ranks)

/-- The ledger rows joined to a team:
`ON ft.team_id = dp.owner_id AND dp.league_id = $1 AND dp.session_id = $2`. -/
def dpMatches (db : Database) (league_id session_id : String) (ft : FTeamRow) :
    List DraftPickRow :=
  db.draft_picks.filter fun d => ft.team_id == d.owner_id
    && d.league_id == league_id && d.session_id == session_id

def pickBranches (db : Database) (league_id session_id : String) (ft : FTeamRow) :
    List PickBranch :=
  mkPickBranches db.sf_player_ranks (dpMatches db league_id session_id ft)

/-- One row of the fully joined relation. -/
structure JoinedRow where
  ft : FTeamRow
  rb : RosterBranch
  pb : PickBranch
deriving DecidableEq

/-- The joined rows contributed by one team row: the cross product of the
roster-side and pick-side branches. -/
def joinedRowsForTeam (db : Database) (league_id session_id : String) (ft : FTeamRow) :
    List JoinedRow :=
  (rosterBranches db league_id session_id ft).flatMap fun rb =>
    (pickBranches db league_id session_id ft).map fun pb => { ft := ft, rb := rb, pb := pb }

/-- `CASE WHEN p.player_position IN ('QB','RB','WR','TE') THEN
sfr.superflex_sf_value ELSE 0 END` with SQL NULL semantics (`none` = NULL):
a NULL position makes the IN test UNKNOWN, selecting the ELSE 0 branch. -/
def rosterCaseB (rb : RosterBranch) : Option Int :=
  match rb.p with
  | some p =>
    if p.player_position == "QB" || p.player_position == "RB"
        || p.player_position == "WR" || p.player_position == "TE" then
      rb.sfr.map fun s => s.superflex_sf_value
    else some 0
  | none => some 0

/-- `CASE WHEN dp.owner_id IS NOT NULL THEN sfr2.superflex_sf_value ELSE 0 END`. -/
def pickCaseB (pb : PickBranch) : Option Int :=
  match pb.dp with
  | some _ => pb.sfr2.map fun s => s.superflex_sf_value
  | none => some 0

def startersCase (r : JoinedRow) : Option Int := rosterCaseB r.rb

def picksCase (r : JoinedRow) : Option Int := pickCaseB r.pb

/-- `COALESCE(SUM(e), 0)`: SQL SUM ignores NULL inputs, and COALESCE turns
the all-NULL (or empty) sum into 0 — together, the sum of the non-NULL
values. -/
def sqlSum (l : List (Option Int)) : Int := (l.map fun o => o.getD 0).sum

/-- The team rows selected by `WHERE ft.league_id = $1 AND ft.session_id = $2`. -/
def teamRows (db : Database) (league_id session_id : String) : List FTeamRow :=
  db.fleaflicker_teams.filter fun ft => ft.league_id == league_id
    && ft.session_id == session_id

/-- The joined rows of one `GROUP BY ft.owner_id, ft.owner_display_name` group. -/
def rowsForKey (db : Database) (league_id session_id : String)
    (key : String × String) : List JoinedRow :=
  ((teamRows db league_id session_id).filter fun ft =>
      ft.owner_id == key.1 && ft.owner_display_name == key.2).flatMap
    (joinedRowsForTeam db league_id session_id)

/-- `total_value` of one group (the query's first SUM — it is the same
expression as `starters_value` and does not include picks). -/
def totalValue (db : Database) (league_id session_id : String)
    (key : String × String) : Int :=
  sqlSum ((rowsForKey db league_id session_id key).map startersCase)

/-- `starters_value` of one group. -/
def startersValue (db : Database) (league_id session_id : String)
    (key : String × String) : Int :=
  sqlSum ((rowsForKey db league_id session_id key).map startersCase)

/-- `picks_value` of one group. -/
def picksValue (db : Database) (league_id session_id : String)
    (key : String × String) : Int :=
  sqlSum ((rowsForKey db league_id session_id key).map picksCase)

/-- The distinct GROUP BY keys. -/
def groupKeys (db : Database) (league_id session_id : String) : List (String × String) :=
  ((teamRows db league_id session_id).map fun ft =>
    (ft.owner_id, ft.owner_display_name)).eraseDups

/-- A row of the `team_values` CTE. -/
structure TeamValuesRow where
  user_id : String
  display_name : String
  total_value : Int
  starters_value : Int
  picks_value : Int
deriving DecidableEq

def team_values (db : Database) (league_id session_id : String) : List TeamValuesRow :=
  (groupKeys db league_id session_id).map fun k =>
    { user_id := k.1
      display_name := k.2
      total_value := totalValue db league_id session_id k
      starters_value := startersValue db league_id session_id k
      picks_value := picksValue db league_id session_id k }

/-- `RANK() OVER (ORDER BY v DESC)`: 1 + the number of partition rows with a
strictly larger value (standard competition ranking). -/
def rankDesc (vals : List Int) (v : Int) : Nat :=
  1 + vals.countP fun w => decide (v < w)

/-- A row of the outer SELECT of the summary query. -/
structure SummaryRow where
  user_id : String
  display_name : String
  total_value : Int
  power_rank : Nat
  starters_value : Int
  starters_rank : Nat
  bench_value : Int
  bench_rank : Nat
  picks_value : Int
  picks_rank : Nat
deriving DecidableEq

/-- The outer SELECT: rank columns over `team_values`, with the literal
columns `0 as bench_value, 1 as bench_rank`.  (`ORDER BY power_rank` only
permutes the rows and is irrelevant to every claim, so it is omitted.) -/
def rankingsQuery (db : Database) (league_id session_id : String) : List SummaryRow :=
  let tv := team_values db league_id session_id
  tv.map fun r =>
    { user_id := r.user_id
      display_name := r.display_name
      total_value := r.total_value
      power_rank := rankDesc (tv.map fun x => x.total_value) r.total_value
      starters_value := r.starters_value
      starters_rank := rankDesc (tv.map fun x => x.starters_value) r.starters_value
      bench_value := 0
      bench_rank := 1
      picks_value := r.picks_value
      picks_rank := rankDesc (tv.map fun x => x.picks_value) r.picks_value }

/-! ### Sum lemmas and the fan-out structure of the query -/

theorem sqlSum_append (a b : List (Option Int)) :
    sqlSum (a ++ b) = sqlSum a + sqlSum b := by
  simp [sqlSum]

theorem sqlSum_map_flatMap {α β : Type} (l : List α) (f : α → List β) (g : β → Option Int) :
    sqlSum ((l.flatMap f).map g) = (l.map fun a => sqlSum ((f a).map g)).sum := by
  induction l with
  | nil => simp [sqlSum]
  | cons x xs ih =>
    simp only [List.flatMap_cons, List.map_append, sqlSum_append, ih, List.map_cons,
      List.sum_cons]

theorem sum_map_const_int {α : Type} (l : List α) (c : Int) :
    (l.map fun _ => c).sum = l.length * c := by
  induction l with
  | nil => simp
  | cons x xs ih =>
    simp [ih]
    ring

/-- C1, amended: for a group backed by a single team row, the query computes
picks_value as (number of roster-side join rows) × (pick-side valuation sum):
every ledger row's valuation match is replicated once per roster join row —
the join fan-out the claim says cannot happen. -/
theorem picksValue_eq_fanout_product (db : Database) (lg sess : String) (ft : FTeamRow)
    (hkey : ((teamRows db lg sess).filter fun f =>
        f.owner_id == ft.owner_id && f.owner_display_name == ft.owner_display_name) = [ft]) :
    picksValue db lg sess (ft.owner_id, ft.owner_display_name)
      = (rosterBranches db lg sess ft).length
        * sqlSum ((pickBranches db lg sess ft).map pickCaseB) := by
  have hrows : rowsForKey db lg sess (ft.owner_id, ft.owner_display_name)
      = joinedRowsForTeam db lg sess ft := by
    rw [rowsForKey]
    simp only []
    rw [hkey]
    simp
  rw [picksValue, hrows, joinedRowsForTeam, sqlSum_map_flatMap]
  have hinner : ∀ rb : RosterBranch,
      sqlSum (((pickBranches db lg sess ft).map fun pb =>
        ({ ft := ft, rb := rb, pb := pb } : JoinedRow)).map picksCase)
      = sqlSum ((pickBranches db lg sess ft).map pickCaseB) := by
    intro rb
    rw [List.map_map]
    rfl
  calc ((rosterBranches db lg sess ft).map fun rb =>
          sqlSum (((pickBranches db lg sess ft).map fun pb =>
            ({ ft := ft, rb := rb, pb := pb } : JoinedRow)).map picksCase)).sum
      = ((rosterBranches db lg sess ft).map fun _ =>
          sqlSum ((pickBranches db lg sess ft).map pickCaseB)).sum := by
        exact congrArg List.sum (List.map_congr_left fun rb _ => hinner rb)
    _ = (rosterBranches db lg sess ft).length
          * sqlSum ((pickBranches db lg sess ft).map pickCaseB) :=
        sum_map_const_int _ _

/-! ### C1 counterexample database

One manager M with one team T1, two rostered players (a QB and a RB, both
with dynasty valuations) and two draft-pick ledger rows that share the
canonical name "2026 Mid 2nd", valued 5000.  The spec's expected
picks_value is 2 × 5000 = 10000; the query returns 2 players × 2 picks
× 5000 = 20000. -/

def lgL : String := "L"

def sessS : String := "S"

def ftM : FTeamRow :=
  { league_id := "L", session_id := "S", team_id := "T1", owner_id := "M",
    owner_display_name := "Manager M" }

def dbC1 : Database :=
  { fleaflicker_teams := [ftM]
    league_players :=
      [ { user_id := "M", player_id := "P1", league_id := "L", session_id := "S" },
        { user_id := "M", player_id := "P2", league_id := "L", session_id := "S" } ]
    players :=
      [ { player_id := "P1", full_name := "Alpha Aaron", player_position := "QB" },
        { player_id := "P2", full_name := "Beta Bob", player_position := "RB" } ]
    sf_player_ranks :=
      [ { player_full_name := "Alpha Aaron", superflex_sf_value := 100, rank_type := "dynasty" },
        { player_full_name := "Beta Bob", superflex_sf_value := 200, rank_type := "dynasty" },
        { player_full_name := "2026 Mid 2nd", superflex_sf_value := 5000, rank_type := "dynasty" } ]
    draft_picks :=
      [ { year := "2026", round := "2", round_name := "Mid 2nd", roster_id := "T1",
          owner_id := "T1", league_id := "L", draft_id := none, session_id := "S" },
        { year := "2026", round := "2", round_name := "Mid 2nd", roster_id := "T2",
          owner_id := "T1", league_id := "L", draft_id := none, session_id := "S" } ] }

def keyM : String × String := ("M", "Manager M")

/-- C1 counterexample: with 2 pick rows named "2026 Mid 2nd" (value 5000)
and a 2-player roster, the query's picks_value is 20000, not 2 × 5000. -/
theorem fanout_counterexample :
    picksValue dbC1 lgL sessS keyM = 20000
      ∧ picksValue dbC1 lgL sessS keyM ≠ 2 * 5000 := by
  decide

/-- Witness for the amended C1 statement at the counterexample database. -/
theorem picksValue_eq_fanout_product_witness :
    (((teamRows dbC1 lgL sessS).filter fun f =>
        f.owner_id == ftM.owner_id && f.owner_display_name == ftM.owner_display_name) = [ftM])
      ∧ picksValue dbC1 lgL sessS (ftM.owner_id, ftM.owner_display_name)
        = (rosterBranches dbC1 lgL sessS ftM).length
          * sqlSum ((pickBranches dbC1 lgL sessS ftM).map pickCaseB) :=
  ⟨by decide, picksValue_eq_fanout_product dbC1 lgL sessS ftM (by decide)⟩

/-! ### Zero-fill semantics of missing valuation matches (C7) -/

/-- The pick-side branch sum decomposes into one addend per ledger row (the
no-pick NULL branch contributes 0). -/
theorem pickSideSum_decomp (ranks : List SfRankRow) (picks : List DraftPickRow) :
    sqlSum ((mkPickBranches ranks picks).map pickCaseB)
      = (picks.map fun d => sqlSum ((branchesOfPick ranks (some d)).map pickCaseB)).sum := by
  cases picks with
  | nil => simp [mkPickBranches, optJoin, branchesOfPick, sqlSum, pickCaseB]
  | cons d tl =>
    rw [mkPickBranches, show optJoin (d :: tl) = (d :: tl).map some from rfl,
      List.flatMap_map, sqlSum_map_flatMap]

/-- A ledger row with no valuation match contributes exactly 0. -/
theorem pickContrib_zero (ranks : List SfRankRow) (d : DraftPickRow)
    (h : pickNameMatches ranks d = []) :
    sqlSum ((branchesOfPick ranks (some d)).map pickCaseB) = 0 := by
  simp [branchesOfPick, h, optJoin, sqlSum, pickCaseB]

theorem pickSideSum_erase (ranks : List SfRankRow) (cond : DraftPickRow → Bool)
    (l1 l2 : List DraftPickRow) (d : DraftPickRow)
    (hmiss : pickNameMatches ranks d = []) :
    sqlSum ((mkPickBranches ranks ((l1 ++ l2).filter cond)).map pickCaseB)
      = sqlSum ((mkPickBranches ranks ((l1 ++ d :: l2).filter cond)).map pickCaseB) := by
  rw [pickSideSum_decomp, pickSideSum_decomp]
  simp only [List.filter_append, List.filter_cons]
  by_cases hc : cond d
  · simp [hc, pickContrib_zero ranks d hmiss]
  · simp [hc]

/-- Per-team picks sum: the cross product makes it the roster-branch count
times the pick-side sum. -/
theorem teamPicksSum (db : Database) (lg sess : String) (ft : FTeamRow) :
    sqlSum ((joinedRowsForTeam db lg sess ft).map picksCase)
      = (rosterBranches db lg sess ft).length
        * sqlSum ((pickBranches db lg sess ft).map pickCaseB) := by
  rw [joinedRowsForTeam, sqlSum_map_flatMap]
  have hinner : ∀ rb : RosterBranch,
      sqlSum (((pickBranches db lg sess ft).map fun pb =>
        ({ ft := ft, rb := rb, pb := pb } : JoinedRow)).map picksCase)
      = sqlSum ((pickBranches db lg sess ft).map pickCaseB) := by
    intro rb
    rw [List.map_map]
    rfl
  calc ((rosterBranches db lg sess ft).map fun rb =>
          sqlSum (((pickBranches db lg sess ft).map fun pb =>
            ({ ft := ft, rb := rb, pb := pb } : JoinedRow)).map picksCase)).sum
      = ((rosterBranches db lg sess ft).map fun _ =>
          sqlSum ((pickBranches db lg sess ft).map pickCaseB)).sum :=
        congrArg List.sum (List.map_congr_left fun rb _ => hinner rb)
    _ = _ := sum_map_const_int _ _

/-- Per-team starters sum: the cross product makes it the pick-branch count
times the roster-side sum. -/
theorem teamStartersSum (db : Database) (lg sess : String) (ft : FTeamRow) :
    sqlSum ((joinedRowsForTeam db lg sess ft).map startersCase)
      = (pickBranches db lg sess ft).length
        * sqlSum ((rosterBranches db lg sess ft).map rosterCaseB) := by
  rw [joinedRowsForTeam, sqlSum_map_flatMap]
  have hinner : ∀ rb : RosterBranch,
      sqlSum (((pickBranches db lg sess ft).map fun pb =>
        ({ ft := ft, rb := rb, pb := pb } : JoinedRow)).map startersCase)
      = (pickBranches db lg sess ft).length * (rosterCaseB rb).getD 0 := by
    intro rb
    rw [List.map_map]
    have : ((pickBranches db lg sess ft).map
        (startersCase ∘ fun pb => ({ ft := ft, rb := rb, pb := pb } : JoinedRow)))
        = (pickBranches db lg sess ft).map fun _ => rosterCaseB rb := rfl
    rw [this, sqlSum, List.map_map]
    have h2 : ((fun o : Option Int => o.getD 0) ∘ fun _ : PickBranch => rosterCaseB rb)
        = fun _ : PickBranch => (rosterCaseB rb).getD 0 := rfl
    rw [h2, sum_map_const_int]
  calc ((rosterBranches db lg sess ft).map fun rb =>
          sqlSum (((pickBranches db lg sess ft).map fun pb =>
            ({ ft := ft, rb := rb, pb := pb } : JoinedRow)).map startersCase)).sum
      = ((rosterBranches db lg sess ft).map fun rb =>
          ((pickBranches db lg sess ft).length : Int) * (rosterCaseB rb).getD 0).sum :=
        congrArg List.sum (List.map_congr_left fun rb _ => hinner rb)
    _ = ((pickBranches db lg sess ft).length : Int)
          * ((rosterBranches db lg sess ft).map fun rb => (rosterCaseB rb).getD 0).sum :=
        List.sum_map_mul_left _ _ _
    _ = _ := by rw [sqlSum, List.map_map]; rfl

/-- The roster-side branch sum decomposes into one addend per rostered-player
row (the empty-roster NULL branch contributes 0). -/
theorem rosterSideSum_decomp (players : List PlayerRow) (ranks : List SfRankRow)
    (lps : List LeaguePlayerRow) :
    sqlSum ((mkRosterBranches players ranks lps).map rosterCaseB)
      = (lps.map fun lp =>
          sqlSum ((branchesOfLp players ranks (some lp)).map rosterCaseB)).sum := by
  cases lps with
  | nil => simp [mkRosterBranches, optJoin, branchesOfLp, sqlSum, rosterCaseB]
  | cons lp tl =>
    rw [mkRosterBranches, show optJoin (lp :: tl) = (lp :: tl).map some from rfl,
      List.flatMap_map, sqlSum_map_flatMap]

/-- With a NULL valuation column the starters CASE yields 0 (either NULL,
skipped by SUM, or the ELSE 0 branch). -/
theorem rosterCaseB_getD_none (olp : Option LeaguePlayerRow) (op : Option PlayerRow) :
    (rosterCaseB { lp := olp, p := op, sfr := none }).getD 0 = 0 := by
  cases op with
  | none => rfl
  | some p =>
    simp only [rosterCaseB]
    split_ifs <;> rfl

/-- A rostered-player row none of whose player rows has a valuation match
contributes exactly 0. -/
theorem lpContrib_zero (players : List PlayerRow) (ranks : List SfRankRow)
    (lp : LeaguePlayerRow)
    (h : ∀ p ∈ players.filter fun p => lp.player_id == p.player_id,
        playerNameMatches ranks p.full_name = []) :
    sqlSum ((branchesOfLp players ranks (some lp)).map rosterCaseB) = 0 := by
  simp only [branchesOfLp]
  cases hps : players.filter (fun p => lp.player_id == p.player_id) with
  | nil => simp [hps, optJoin, sqlSum, rosterCaseB]
  | cons p tl =>
    rw [show optJoin (p :: tl) = (p :: tl).map some from rfl,
      List.flatMap_map, sqlSum_map_flatMap]
    apply List.sum_eq_zero
    intro x hx
    simp only [List.mem_map] at hx
    obtain ⟨q, hq, rfl⟩ := hx
    have hq2 : playerNameMatches ranks q.full_name = [] := h q (by rw [hps]; exact hq)
    simp [Function.comp, hq2, optJoin, sqlSum, rosterCaseB_getD_none]

theorem rosterSideSum_erase (players : List PlayerRow) (ranks : List SfRankRow)
    (cond : LeaguePlayerRow → Bool) (l1 l2 : List LeaguePlayerRow) (lp : LeaguePlayerRow)
    (hzero : sqlSum ((branchesOfLp players ranks (some lp)).map rosterCaseB) = 0) :
    sqlSum ((mkRosterBranches players ranks ((l1 ++ l2).filter cond)).map rosterCaseB)
      = sqlSum ((mkRosterBranches players ranks ((l1 ++ lp :: l2).filter cond)).map
          rosterCaseB) := by
  rw [rosterSideSum_decomp, rosterSideSum_decomp]
  simp only [List.filter_append, List.filter_cons]
  by_cases hc : cond lp
  · simp [hc, hzero]
  · simp [hc]

/-- C7: zero-fill on missing valuation.  Removing a ledger pick row whose
canonical name has no valuation entry leaves picks_value unchanged (the row
contributed exactly 0 to it), and removing a rostered-player row whose
player rows have no valuation entry leaves starters_value and total_value
unchanged.  All functions involved are total: no error is raised. -/
theorem zero_fill_on_missing_valuation :
    (∀ (db : Database) (lg sess : String) (key : String × String)
        (l1 l2 : List DraftPickRow) (d : DraftPickRow),
        db.draft_picks = l1 ++ d :: l2 →
        pickNameMatches db.sf_player_ranks d = [] →
        picksValue { db with draft_picks := l1 ++ l2 } lg sess key
          = picksValue db lg sess key) ∧
    (∀ (db : Database) (lg sess : String) (key : String × String)
        (l1 l2 : List LeaguePlayerRow) (lp : LeaguePlayerRow),
        db.league_players = l1 ++ lp :: l2 →
        (∀ p ∈ db.players.filter fun p => lp.player_id == p.player_id,
            playerNameMatches db.sf_player_ranks p.full_name = []) →
        startersValue { db with league_players := l1 ++ l2 } lg sess key
          = startersValue db lg sess key
        ∧ totalValue { db with league_players := l1 ++ l2 } lg sess key
          = totalValue db lg sess key) := by
  constructor
  · intro db lg sess key l1 l2 d hdb hmiss
    rw [picksValue, picksValue, rowsForKey, rowsForKey]
    have ht : teamRows { db with draft_picks := l1 ++ l2 } lg sess = teamRows db lg sess := rfl
    rw [ht, sqlSum_map_flatMap, sqlSum_map_flatMap]
    refine congrArg List.sum (List.map_congr_left ?_)
    intro ft hft
    rw [teamPicksSum, teamPicksSum]
    have hro : rosterBranches { db with draft_picks := l1 ++ l2 } lg sess ft
        = rosterBranches db lg sess ft := rfl
    rw [hro]
    have hpk : pickBranches { db with draft_picks := l1 ++ l2 } lg sess ft
        = mkPickBranches db.sf_player_ranks ((l1 ++ l2).filter fun dd =>
            ft.team_id == dd.owner_id && dd.league_id == lg && dd.session_id == sess) := rfl
    have hpk2 : pickBranches db lg sess ft
        = mkPickBranches db.sf_player_ranks ((l1 ++ d :: l2).filter fun dd =>
            ft.team_id == dd.owner_id && dd.league_id == lg && dd.session_id == sess) := by
      rw [pickBranches, dpMatches, hdb]
    rw [hpk, hpk2, pickSideSum_erase db.sf_player_ranks _ l1 l2 d hmiss]
  · intro db lg sess key l1 l2 lp hdb hmiss
    have hstar : startersValue { db with league_players := l1 ++ l2 } lg sess key
        = startersValue db lg sess key := by
      rw [startersValue, startersValue, rowsForKey, rowsForKey]
      have ht : teamRows { db with league_players := l1 ++ l2 } lg sess
          = teamRows db lg sess := rfl
      rw [ht, sqlSum_map_flatMap, sqlSum_map_flatMap]
      refine congrArg List.sum (List.map_congr_left ?_)
      intro ft hft
      rw [teamStartersSum, teamStartersSum]
      have hpb : pickBranches { db with league_players := l1 ++ l2 } lg sess ft
          = pickBranches db lg sess ft := rfl
      rw [hpb]
      congr 1
      have hrb : rosterBranches { db with league_players := l1 ++ l2 } lg sess ft
          = mkRosterBranches db.players db.sf_player_ranks ((l1 ++ l2).filter fun x =>
              ft.owner_id == x.user_id && x.league_id == lg && x.session_id == sess) := rfl
      have hrb2 : rosterBranches db lg sess ft
          = mkRosterBranches db.players db.sf_player_ranks ((l1 ++ lp :: l2).filter fun x =>
              ft.owner_id == x.user_id && x.league_id == lg && x.session_id == sess) := by
        rw [rosterBranches, lpMatches, hdb]
      rw [hrb, hrb2]
      exact rosterSideSum_erase db.players db.sf_player_ranks _ l1 l2 lp
        (lpContrib_zero db.players db.sf_player_ranks lp hmiss)
    exact ⟨hstar, hstar⟩

/-- An extra ledger row whose canonical name "2027 Mid 3rd" has no valuation
entry in `dbC1`. -/
def pickNoVal : DraftPickRow :=
  { year := "2027", round := "3", round_name := "Mid 3rd", roster_id := "T3",
    owner_id := "T1", league_id := "L", draft_id := none, session_id := "S" }

/-- An extra rostered-player row whose player ("Gamma Carl") has no valuation
entry in `dbC1`. -/
def lpNoVal : LeaguePlayerRow :=
  { user_id := "M", player_id := "P3", league_id := "L", session_id := "S" }

/-- `dbC1` extended with a valuation-less pick row and a valuation-less
roster row. -/
def dbC7 : Database :=
  { dbC1 with
    draft_picks := dbC1.draft_picks ++ [pickNoVal]
    league_players := dbC1.league_players ++ [lpNoVal]
    players := dbC1.players
      ++ [{ player_id := "P3", full_name := "Gamma Carl", player_position := "WR" }] }

/-- Witness for C7: at `dbC7`, dropping the valuation-less pick row leaves
picks_value unchanged, and dropping the valuation-less roster row leaves
starters_value unchanged. -/
theorem zero_fill_on_missing_valuation_witness :
    (dbC7.draft_picks = dbC1.draft_picks ++ pickNoVal :: []
      ∧ pickNameMatches dbC7.sf_player_ranks pickNoVal = []
      ∧ picksValue { dbC7 with draft_picks := dbC1.draft_picks ++ [] } lgL sessS keyM
          = picksValue dbC7 lgL sessS keyM)
      ∧ (dbC7.league_players = dbC1.league_players ++ lpNoVal :: []
        ∧ startersValue { dbC7 with league_players := dbC1.league_players ++ [] } lgL sessS keyM
            = startersValue dbC7 lgL sessS keyM) :=
  ⟨⟨by decide, by decide,
    zero_fill_on_missing_valuation.1 dbC7 lgL sessS keyM dbC1.draft_picks [] pickNoVal
      (by decide) (by decide)⟩,
   ⟨by decide,
    (zero_fill_on_missing_valuation.2 dbC7 lgL sessS keyM dbC1.league_players [] lpNoVal
      (by decide) (by decide)).1⟩⟩

/-! ### The ranks_summary upsert (Rank Summary Writer) -/

/-- The ranking sources of `insert_fleaflicker_ranks_summary` (its docstring:
ktc, fc, sf, dp, dd).  The `dynastr.ranks_summary` columns
`{source}_power_rank`, `{source}_starters_rank`, `{source}_bench_rank`,
`{source}_picks_rank` are modeled as functions from `RankSource`. -/
inductive RankSource where
  | ktc : RankSource
  | fc : RankSource
  | sf : RankSource
  | dp : RankSource
  | dd : RankSource
deriving DecidableEq

/-- A row of `dynastr.ranks_summary`, keyed by `(user_id, league_id)`.  A
`none` rank column is SQL NULL (never written for that source). -/
structure RanksSummaryRow where
  user_id : String
  display_name : String
  league_id : String
  power_rank : RankSource → Option Nat
  starters_rank : RankSource → Option Nat
  bench_rank : RankSource → Option Nat
  picks_rank : RankSource → Option Nat
  updatetime : Nat

/-- The upsert of `insert_fleaflicker_ranks_summary` (fleaflicker_utils.py,
lines 716-744): `INSERT ... ON CONFLICT (user_id, league_id) DO UPDATE SET`
writes `updatetime` and the four `{rank_source}`-prefixed columns only; on a
fresh insert the other sources' columns are NULL and `display_name` is set
(it is *not* in the DO UPDATE SET list). -/
def upsertRankRow (table : List RanksSummaryRow) (src : RankSource)
    (user_id display_name league_id : String) (pr sr br pkr now : Nat) :
    List RanksSummaryRow :=
  if table.any fun row => row.user_id == user_id && row.league_id == league_id then
    table.map fun row =>
      if row.user_id == user_id && row.league_id == league_id then
        { row with
          updatetime := now
          power_rank := fun s => if s = src then some pr else row.power_rank s
          starters_rank := fun s => if s = src then some sr else row.starters_rank s
          bench_rank := fun s => if s = src then some br else row.bench_rank s
          picks_rank := fun s => if s = src then some pkr else row.picks_rank s }
      else row
  else
    table ++ [{ user_id := user_id
                display_name := display_name
                league_id := league_id
                power_rank := fun s => if s = src then some pr else none
                starters_rank := fun s => if s = src then some sr else none
                bench_rank := fun s => if s = src then some br else none
                picks_rank := fun s => if s = src then some pkr else none
                updatetime := now }]

/-- The write loop of `insert_fleaflicker_ranks_summary`: one upsert per row
of the summary query, in order. -/
def insert_fleaflicker_ranks_summary (db : Database) (table : List RanksSummaryRow)
    (session_id league_id : String) (src : RankSource) (now : Nat) :
    List RanksSummaryRow :=
  (rankingsQuery db league_id session_id).foldl
    (fun t r => upsertRankRow t src r.user_id r.display_name league_id
      r.power_rank r.starters_rank r.bench_rank r.picks_rank now) table

/-- C6: per-source frame condition.  When the `(user_id, league_id)` key
already exists, an upsert for source A maps the table row-by-row; projecting
every row to its key, display_name, and the four rank columns of any other
source B shows those are unchanged by the write. -/
theorem upsert_preserves_other_sources (table : List RanksSummaryRow)
    (A B : RankSource) (hBA : B ≠ A) (u dn lg : String) (pr sr br pkr now : Nat)
    (hex : (table.any fun row => row.user_id == u && row.league_id == lg) = true) :
    (upsertRankRow table A u dn lg pr sr br pkr now).map
        (fun row => (row.user_id, row.league_id, row.display_name, row.power_rank B,
          row.starters_rank B, row.bench_rank B, row.picks_rank B))
      = table.map fun row => (row.user_id, row.league_id, row.display_name,
          row.power_rank B, row.starters_rank B, row.bench_rank B, row.picks_rank B) := by
  rw [upsertRankRow, if_pos hex, List.map_map]
  apply List.map_congr_left
  intro row hrow
  by_cases hm : (row.user_id == u && row.league_id == lg) = true
  · simp [Function.comp, hm, hBA]
  · simp [Function.comp, hm]

/-- A concrete ranks_summary row holding fc-source ranks, for the C6 witness. -/
def rsRow0 : RanksSummaryRow :=
  { user_id := "M"
    display_name := "Manager M"
    league_id := "L"
    power_rank := fun s => if s = RankSource.fc then some 7 else none
    starters_rank := fun s => if s = RankSource.fc then some 6 else none
    bench_rank := fun s => if s = RankSource.fc then some 5 else none
    picks_rank := fun s => if s = RankSource.fc then some 4 else none
    updatetime := 0 }

/-- Witness for C6: a ktc-source upsert leaves the fc columns of the
existing row untouched. -/
theorem upsert_preserves_other_sources_witness :
    RankSource.fc ≠ RankSource.ktc
    ∧ (([rsRow0].any fun row =>
        row.user_id == ("M" : String) && row.league_id == ("L" : String)) = true)
    ∧ (upsertRankRow [rsRow0] RankSource.ktc ("M") ("Manager M") ("L") 1 2 3 4 9).map
        (fun row => (row.user_id, row.league_id, row.display_name,
          row.power_rank RankSource.fc, row.starters_rank RankSource.fc,
          row.bench_rank RankSource.fc, row.picks_rank RankSource.fc))
      = [rsRow0].map fun row => (row.user_id, row.league_id, row.display_name,
          row.power_rank RankSource.fc, row.starters_rank RankSource.fc,
          row.bench_rank RankSource.fc, row.picks_rank RankSource.fc) :=
  ⟨by decide, by decide,
   upsert_preserves_other_sources [rsRow0] RankSource.ktc RankSource.fc (by decide)
     ("M") ("Manager M") ("L") 1 2 3 4 9 (by decide)⟩

theorem foldl_congr_mem {α β : Type} (l : List α) (f g : β → α → β)
    (h : ∀ b a, a ∈ l → f b a = g b a) : ∀ b, l.foldl f b = l.foldl g b := by
  induction l with
  | nil => intro b; rfl
  | cons x xs ih =>
    intro b
    simp only [List.foldl_cons]
    rw [h b x (by simp)]
    exact ih (fun b a ha => h b a (by simp [ha])) _

/-- C10: the bench metric is never computed.  Every row of the summary query
has the literal columns bench_value = 0 and bench_rank = 1, and the write
loop is exactly the loop that stores the constant 1 in the bench rank
column. -/
theorem bench_metric_is_constant (db : Database) (lg sess : String) :
    (∀ r ∈ rankingsQuery db lg sess, r.bench_value = 0 ∧ r.bench_rank = 1)
    ∧ (∀ (table : List RanksSummaryRow) (src : RankSource) (now : Nat),
        insert_fleaflicker_ranks_summary db table sess lg src now
          = (rankingsQuery db lg sess).foldl
              (fun t r => upsertRankRow t src r.user_id r.display_name lg
                r.power_rank r.starters_rank 1 r.picks_rank now) table) := by
  constructor
  · intro r hr
    rw [rankingsQuery] at hr
    simp only [List.mem_map] at hr
    obtain ⟨x, hx, rfl⟩ := hr
    exact ⟨rfl, rfl⟩
  · intro table src now
    rw [insert_fleaflicker_ranks_summary]
    apply foldl_congr_mem
    intro t r hr
    have hb : r.bench_rank = 1 := by
      rw [rankingsQuery] at hr
      simp only [List.mem_map] at hr
      obtain ⟨x, hx, rfl⟩ := hr
      rfl
    rw [hb]

/-- Witness for C10 at the concrete database `dbC1`. -/
theorem bench_metric_is_constant_witness :
    ∃ r ∈ rankingsQuery dbC1 lgL sessS, r.bench_value = 0 ∧ r.bench_rank = 1 :=
  ⟨{ user_id := "M", display_name := "Manager M", total_value := 600, power_rank := 1,
     starters_value := 600, starters_rank := 1, bench_value := 0, bench_rank := 1,
     picks_value := 20000, picks_rank := 1 },
   by decide,
   (bench_metric_is_constant dbC1 lgL sessS).1 _ (by decide)⟩

theorem rankDesc_next_distinct (v vnext : Int) (hlt : vnext < v) :
    ∀ vals : List Int, (∀ u ∈ vals, ¬(vnext < u ∧ u < v)) →
      rankDesc vals vnext = rankDesc vals v + vals.count v := by
  intro vals
  induction vals with
  | nil => intro hbet; simp [rankDesc]
  | cons u us ih =>
    intro hbet
    have hu := hbet u (by simp)
    have ihu := ih fun x hx => hbet x (by simp [hx])
    rcases lt_trichotomy u v with hc | hc | hc
    · have h1 : ¬(vnext < u) := fun hx => hu ⟨hx, hc⟩
      have h2 : ¬(v < u) := by omega
      have h3 : ¬(u = v) := by omega
      simp only [rankDesc, List.countP_cons, List.count_cons] at ihu ⊢
      simp [h1, h2, h3]
      omega
    · subst hc
      have h1 : vnext < u := hlt
      have h2 : ¬(u < u) := lt_irrefl u
      simp only [rankDesc, List.countP_cons, List.count_cons] at ihu ⊢
      simp [h1, h2]
      omega
    · have h1 : vnext < u := lt_trans hlt hc
      have h2 : v < u := hc
      have h3 : ¬(u = v) := by omega
      simp only [rankDesc, List.countP_cons, List.count_cons] at ihu ⊢
      simp [h1, h2, h3]
      omega

/-- C5: RANK() tie semantics.  Each rank column of the summary query is the
standard competition rank of the row's metric value over all groups; equal
values always receive equal ranks, and the next distinct (smaller) value
receives the tied rank plus the number of tied rows (1,1,3,...). -/
theorem rank_tie_semantics :
    (∀ (db : Database) (lg sess : String), ∀ r ∈ rankingsQuery db lg sess,
        r.picks_rank
            = rankDesc ((team_values db lg sess).map fun x => x.picks_value) r.picks_value
          ∧ r.starters_rank
            = rankDesc ((team_values db lg sess).map fun x => x.starters_value)
                r.starters_value
          ∧ r.power_rank
            = rankDesc ((team_values db lg sess).map fun x => x.total_value) r.total_value)
    ∧ (∀ (vals : List Int) (v w : Int), v = w → rankDesc vals v = rankDesc vals w)
    ∧ (∀ (vals : List Int) (v vnext : Int), vnext < v →
        (∀ u ∈ vals, ¬(vnext < u ∧ u < v)) →
        rankDesc vals vnext = rankDesc vals v + vals.count v) := by
  refine ⟨?_, ?_, ?_⟩
  · intro db lg sess r hr
    rw [rankingsQuery] at hr
    simp only [List.mem_map] at hr
    obtain ⟨x, hx, rfl⟩ := hr
    exact ⟨rfl, rfl, rfl⟩
  · intro vals v w h
    rw [h]
  · intro vals v vnext hlt hbet
    exact rankDesc_next_distinct v vnext hlt vals hbet

/-- Witness for C5: values 5, 5, -7 rank as 1, 1, 3. -/
theorem rank_tie_semantics_witness :
    ((-7 : Int) < 5 ∧ (∀ u ∈ [(5 : Int), 5, -7], ¬((-7 : Int) < u ∧ u < 5))
      ∧ rankDesc [(5 : Int), 5, -7] (-7)
          = rankDesc [(5 : Int), 5, -7] 5 + ([(5 : Int), 5, -7].count 5))
    ∧ rankDesc [(5 : Int), 5, -7] (-7) = 3 ∧ rankDesc [(5 : Int), 5, -7] 5 = 1 :=
  ⟨⟨by decide, by decide,
    rank_tie_semantics.2.2 [(5 : Int), 5, -7] 5 (-7) (by decide) (by decide)⟩,
   by decide, by decide⟩

/-! ### The ownership resolver: extract_all_fleaflicker_draft_picks -/

/-- One raw pick fact as FetchTeamPicks reports it: `season`, `slot.round`,
`ownedBy.id` (current owner) and `original.id` (original owner team), each
possibly missing.  Ids are modeled as strings (the Python code stringifies
them); a missing value is `none`. -/
structure RawPick where
  season : Option Nat
  round : Option Nat
  ownedBy : Option String
  original : Option String
deriving DecidableEq

/-- The FetchTeamPicks response for one team. -/
structure TeamPicksResponse where
  team_id : String
  picks : List RawPick
deriving DecidableEq

/-- One extracted pick dictionary (lines 1328-1335). -/
structure PickData where
  year : String
  round : String
  round_name : String
  roster_id : String
  owner_id : String
  league_id : String
deriving DecidableEq

/-- The body of the pick loop (fleaflicker_utils.py, lines 1282-1342), as a
fold step over (seen_picks, draft_picks).  The Python guard
`if (season and round_num and owner_id and season >= current_year + 1 and
round_num <= 4)` requires the three fields present and truthy; the seen key
`f"team_season_round_original"` is modeled as the tuple
`(team_id, season, round, original_id)` (the ids are numeric strings, so
the underscore-joined string determines the tuple).  `original_id` falls
back to the reporting team when the `original` field is absent
(line 1293). -/
def processPick (league_id : String) (current_year : Nat) (team_id : String)
    (st : List (String × Nat × Nat × String) × List PickData) (pick : RawPick) :
    List (String × Nat × Nat × String) × List PickData :=
  match pick.season, pick.round, pick.ownedBy with
  | some season, some round_num, some owner_id =>
    if season ≠ 0 ∧ round_num ≠ 0 ∧ owner_id ≠ ""
        ∧ season ≥ current_year + 1 ∧ round_num ≤ 4 then
      let original_id := pick.original.getD team_id
      let pick_key := (team_id, season, round_num, original_id)
      if pick_key ∈ st.1 then st
      else
        (pick_key :: st.1,
         st.2 ++ [{ year := natToString season
                    round := natToString round_num
                    round_name := "Mid " ++ get_round_suffix round_num
                    roster_id := original_id
                    owner_id := owner_id
                    league_id := league_id }])
    else st
  | _, _, _ => st

/-- Embedding of `extract_all_fleaflicker_draft_picks` (lines 1266-1349):
one shared seen-set across all teams, picks processed team by team in
order.  `responses` are the successful FetchTeamPicks responses. -/
def extract_all_fleaflicker_draft_picks (league_id : String) (current_year : Nat)
    (responses : List TeamPicksResponse) : List PickData :=
  (responses.foldl (fun st resp =>
    resp.picks.foldl (processPick league_id current_year resp.team_id) st)
    ([], [])).2

/-- The database row built from one extracted pick (lines 1462-1473):
`draft_id` is always NULL for Fleaflicker. -/
def pickRowOf (session_id league_id : String) (p : PickData) : DraftPickRow :=
  { year := p.year, round := p.round, round_name := p.round_name,
    roster_id := p.roster_id, owner_id := p.owner_id, league_id := league_id,
    draft_id := none, session_id := session_id }

/-- The `ON CONFLICT (year, round, roster_id, owner_id, league_id,
session_id)` target of the ledger insert (line 1479). -/
def pickConflict (a b : DraftPickRow) : Bool :=
  decide (a.year = b.year ∧ a.round = b.round ∧ a.roster_id = b.roster_id
    ∧ a.owner_id = b.owner_id ∧ a.league_id = b.league_id
    ∧ a.session_id = b.session_id)

/-- One `INSERT ... ON CONFLICT ... DO UPDATE SET round_name, draft_id`
(lines 1476-1481): on conflict only round_name and draft_id are rewritten,
otherwise the row is appended. -/
def upsertPickRow (table : List DraftPickRow) (r : DraftPickRow) : List DraftPickRow :=
  if table.any fun row => pickConflict row r then
    table.map fun row =>
      if pickConflict row r then
        { row with round_name := r.round_name, draft_id := r.draft_id }
      else row
  else table ++ [r]

/-- Embedding of `insert_fleaflicker_draft_picks_data` (lines 1445-1486):
executemany of the upsert, row by row in order. -/
def insert_fleaflicker_draft_picks_data (table : List DraftPickRow)
    (session_id league_id : String) (draft_picks_data : List PickData) :
    List DraftPickRow :=
  draft_picks_data.foldl (fun t p => upsertPickRow t (pickRowOf session_id league_id p))
    table

/-- Rows of the ledger sharing `r`'s conflict key. -/
def conflictCount (table : List DraftPickRow) (r : DraftPickRow) : Nat :=
  table.countP fun row => pickConflict row r

/-- Raw facts for the same original pick reported by two teams with
different current owners (a stale report from the seller A and the final
owner C's own report, after a trade chain A→B→C). -/
def respA : TeamPicksResponse :=
  { team_id := "A"
    picks := [{ season := some 2026, round := some 2, ownedBy := some "B",
                original := some "A" }] }

def respC : TeamPicksResponse :=
  { team_id := "C"
    picks := [{ season := some 2026, round := some 2, ownedBy := some "C",
                original := some "A" }] }

/-- C2 counterexample: the seen key includes the *reporting* team id, so the
two reports survive extraction, and the DB conflict key includes the
current owner, so they produce two stored records for the single original
pick (2026, round 2, original owner A) — not one. -/
theorem one_record_per_original_pick_counterexample :
    ((insert_fleaflicker_draft_picks_data [] sessS lgL
        (extract_all_fleaflicker_draft_picks lgL 2025 [respA, respC])).filter
        fun row => row.year == ("2026" : String) && row.round == ("2" : String)
          && row.roster_id == ("A" : String)).length = 2
    ∧ (2 : Nat) ≠ 1 := by
  decide

theorem upsertPickRow_preserves_unique (table : List DraftPickRow) (r : DraftPickRow)
    (hinv : ∀ x, conflictCount table x ≤ 1) :
    ∀ x, conflictCount (upsertPickRow table r) x ≤ 1 := by
  intro x
  by_cases hany : (table.any fun row => pickConflict row r) = true
  · rw [upsertPickRow, if_pos hany, conflictCount, List.countP_map]
    have hcomp : ((fun row => pickConflict row x) ∘ fun row =>
        if pickConflict row r then
          { row with round_name := r.round_name, draft_id := r.draft_id }
        else row)
        = fun row => pickConflict row x := by
      funext row
      by_cases hc : pickConflict row r = true
      · simp only [Function.comp, hc, if_true]
        rfl
      · simp [Function.comp, hc]
    rw [hcomp]
    exact hinv x
  · rw [upsertPickRow, if_neg hany, conflictCount, List.countP_append]
    by_cases hx : pickConflict r x = true
    · have hz : table.countP (fun row => pickConflict row x) = 0 := by
        rw [List.countP_eq_zero]
        intro row hrow hcx
        apply hany
        rw [List.any_eq_true]
        refine ⟨row, hrow, ?_⟩
        simp only [pickConflict, decide_eq_true_eq] at hcx hx ⊢
        exact ⟨hcx.1.trans hx.1.symm, hcx.2.1.trans hx.2.1.symm,
          hcx.2.2.1.trans hx.2.2.1.symm, hcx.2.2.2.1.trans hx.2.2.2.1.symm,
          hcx.2.2.2.2.1.trans hx.2.2.2.2.1.symm, hcx.2.2.2.2.2.trans hx.2.2.2.2.2.symm⟩
      rw [hz]
      simp [hx]
    · have h0 : List.countP (fun row => pickConflict row x) [r] = 0 := by simp [hx]
      rw [h0]
      simpa using hinv x

theorem insert_picks_preserves_unique (session_id league_id : String) :
    ∀ (picks : List PickData) (table : List DraftPickRow),
      (∀ x, conflictCount table x ≤ 1) →
      ∀ x, conflictCount
        (insert_fleaflicker_draft_picks_data table session_id league_id picks) x ≤ 1 := by
  intro picks
  induction picks with
  | nil =>
    intro table h x
    exact h x
  | cons p tl ih =>
    intro table h x
    rw [insert_fleaflicker_draft_picks_data, List.foldl_cons]
    exact ih (upsertPickRow table (pickRowOf session_id league_id p))
      (upsertPickRow_preserves_unique table (pickRowOf session_id league_id p) h) x

/-- C2 amended: refreshing an empty ledger stores at most one record per
*(year, round, original_owner, current_owner, league, session)* conflict
key — the upsert collapses duplicate reports only when they agree on the
current owner; reports of the same original pick that disagree on the
current owner each keep their own record (see the counterexample). -/
theorem one_record_per_conflict_key (session_id league_id : String)
    (picks : List PickData) (r : DraftPickRow) :
    conflictCount (insert_fleaflicker_draft_picks_data [] session_id league_id picks) r
      ≤ 1 :=
  insert_picks_preserves_unique session_id league_id picks []
    (fun x => by simp [conflictCount]) r

/-- A raw fact whose current owner (`ownedBy`) is missing. -/
def rawNoOwner : RawPick :=
  { season := some 2026, round := some 2, ownedBy := none, original := some "A" }

/-- C4 counterexample: a raw pick fact with an unresolvable current owner
produces *no* record at all — it is silently dropped by the guard, not kept
with `current_owner_id = original_owner_id`. -/
theorem unresolved_owner_dropped_counterexample :
    extract_all_fleaflicker_draft_picks lgL 2025
        [{ team_id := "A", picks := [rawNoOwner] }] = []
      ∧ rawNoOwner.original = some "A" := by
  decide

/-- C4 amended: a raw pick fact whose current owner is missing is silently
skipped — the resolver state is unchanged, no record is produced, and no
error is raised (every function involved is total).  The original-owner
fallback runs in the opposite direction only: a present fact with a missing
`original` field is kept with the reporting team as original owner. -/
theorem unresolved_owner_skipped :
    (∀ (league_id : String) (current_year : Nat) (team_id : String)
        (st : List (String × Nat × Nat × String) × List PickData) (pick : RawPick),
        pick.ownedBy = none →
        processPick league_id current_year team_id st pick = st)
    ∧ (∀ (league_id : String) (current_year : Nat) (team_id : String)
        (picks : List RawPick),
        (∀ pick ∈ picks, pick.ownedBy = none) →
        extract_all_fleaflicker_draft_picks league_id current_year
          [{ team_id := team_id, picks := picks }] = []) := by
  constructor
  · intro league_id current_year team_id st pick h
    rcases pick with ⟨s, r, ob, orig⟩
    simp only at h
    subst h
    cases s <;> cases r <;> rfl
  · intro league_id current_year team_id picks h
    rw [extract_all_fleaflicker_draft_picks]
    simp only [List.foldl_cons, List.foldl_nil]
    have hfold : ∀ st : List (String × Nat × Nat × String) × List PickData,
        picks.foldl (processPick league_id current_year team_id) st = st := by
      induction picks with
      | nil => intro st; rfl
      | cons p tl ih =>
        intro st
        rw [List.foldl_cons]
        rcases p with ⟨s, r, ob, orig⟩
        have hb : ob = none := h ⟨s, r, ob, orig⟩ (by simp)
        subst hb
        have hstep : processPick league_id current_year team_id st ⟨s, r, none, orig⟩
            = st := by
          cases s <;> cases r <;> rfl
        rw [hstep]
        exact ih (fun pick hp => h pick (by simp [hp])) st
    rw [hfold]

/-- Witness for the amended C4 at the concrete dropped fact. -/
theorem unresolved_owner_skipped_witness :
    rawNoOwner.ownedBy = none
      ∧ processPick lgL 2025 ("A")
          (([], []) : List (String × Nat × Nat × String) × List PickData) rawNoOwner
        = (([], []) : List (String × Nat × Nat × String) × List PickData) :=
  ⟨rfl, unresolved_owner_skipped.1 lgL 2025 ("A") ([], []) rawNoOwner rfl⟩

/-! ### Transactional structure of the ledger refresh (C3) -/

/-- A transaction's effect on the draft-pick ledger.  A transaction is
atomic: it either applies entirely or, failing, leaves the table unchanged.
A refresh is a list of transactions, and a failure at point `k` leaves the
state after the first `k` committed transactions observable. -/
def LedgerTxn : Type := List DraftPickRow → List DraftPickRow

/-- The observable ledger after the first `k` transactions commit and the
refresh then fails (or finishes, for `k` past the end). -/
def runPrefix (txns : List LedgerTxn) (k : Nat) (table : List DraftPickRow) :
    List DraftPickRow :=
  (txns.take k).foldl (fun st t => t st) table

/-- `DELETE FROM dynastr.draft_picks WHERE league_id = $1 AND session_id = $2`. -/
def deleteLeaguePicks (league_id session_id : String)
    (table : List DraftPickRow) : List DraftPickRow :=
  table.filter fun row => !(row.league_id == league_id && row.session_id == session_id)

/-- Plain `INSERT` of the new MFL rows (no conflict clause). -/
def insertRows (rows : List DraftPickRow) (table : List DraftPickRow) :
    List DraftPickRow :=
  table ++ rows

/-- `insert_mfl_draft_picks` (mfl_utils.py, lines 282-297): the DELETE and
the INSERT run inside one `db.transaction()` — a single atomic ledger
update. -/
def insert_mfl_draft_picks_txns (league_id session_id : String)
    (rows : List DraftPickRow) : List LedgerTxn :=
  [fun table => insertRows rows (deleteLeaguePicks league_id session_id table)]

/-- `player_manager_rosters_fleaflicker` (fleaflicker_utils.py, lines
1178-1229): the draft-pick DELETE commits inside
`clean_fleaflicker_draft_data`'s own transaction (line 1181), and the
INSERT commits in `insert_fleaflicker_draft_picks_data`'s separate
transaction (line 1221); the manager/team/roster/scoreboard steps in
between do not touch the ledger, so any failure between the two
transactions exposes the state after the DELETE alone. -/
def fleaflicker_refresh_txns (session_id league_id : String)
    (picks : List PickData) : List LedgerTxn :=
  [fun table => deleteLeaguePicks league_id session_id table,
   fun table => insert_fleaflicker_draft_picks_data table session_id league_id picks]

/-- A previous-snapshot ledger row of league L, session S. -/
def oldPickRow : DraftPickRow :=
  { year := "2026", round := "1", round_name := "Mid 1st", roster_id := "T1",
    owner_id := "T1", league_id := "L", draft_id := none, session_id := "S" }

/-- C3 counterexample: the Fleaflicker refresh deletes in one transaction
and inserts in a later one, so failing after the first transaction leaves
the ledger emptied — the previous snapshot's row is gone. -/
theorem atomic_refresh_counterexample :
    runPrefix (fleaflicker_refresh_txns sessS lgL
        [{ year := "2026", round := "1", round_name := "Mid 1st", roster_id := "T1",
           owner_id := "T1", league_id := "L" }]) 1 [oldPickRow] = []
      ∧ [oldPickRow] ≠ ([] : List DraftPickRow) := by
  decide

/-- C3 amended: the MFL refresh is atomic — every failure point shows either
the untouched previous snapshot or the fully replaced one — while the
Fleaflicker refresh has a committed intermediate state in which the
league's ledger rows are deleted and the new rows not yet inserted. -/
theorem refresh_transaction_structure :
    (∀ (league_id session_id : String) (rows : List DraftPickRow)
        (table : List DraftPickRow) (k : Nat),
        runPrefix (insert_mfl_draft_picks_txns league_id session_id rows) k table = table
        ∨ runPrefix (insert_mfl_draft_picks_txns league_id session_id rows) k table
            = insertRows rows (deleteLeaguePicks league_id session_id table))
    ∧ (∀ (session_id league_id : String) (picks : List PickData)
        (table : List DraftPickRow),
        runPrefix (fleaflicker_refresh_txns session_id league_id picks) 1 table
          = deleteLeaguePicks league_id session_id table) := by
  constructor
  · intro league_id session_id rows table k
    cases k with
    | zero => exact Or.inl rfl
    | succ n =>
      refine Or.inr ?_
      rw [runPrefix, insert_mfl_draft_picks_txns]
      simp [List.take_succ_cons]
  · intro session_id league_id picks table
    rfl

/-- `dbC1` plus only the valuation-less pick row. -/
def dbC7pick : Database := { dbC1 with draft_picks := dbC1.draft_picks ++ [pickNoVal] }

/-- C7 counterexample: the valuation-less pick row "2027 Mid 3rd" does not
contribute 0 to the manager's total — through the join fan-out it
replicates the roster rows once more, raising total_value from 600 to 900
(its own picks_value contribution is 0, see the amended theorem). -/
theorem zero_fill_total_counterexample :
    pickNameMatches dbC7pick.sf_player_ranks pickNoVal = []
      ∧ totalValue dbC7pick lgL sessS keyM = 900
      ∧ totalValue dbC1 lgL sessS keyM = 600
      ∧ (900 : Int) ≠ 600 := by
  decide
